import Mathlib

/-!
Shallow embedding of the invoice-extractor core (src/app.py).

JSON-decoded records are modelled as association lists from field names to
JSON values; Python dict `get`/assignment become `dget`/`dset`.  Python
truthiness on the values that occur here (None, strings, numbers) is
`truthy`.  Python `float(·)` on plain decimal string literals is `pyFloat`
(exponents, `inf`/`nan` and surrounding whitespace are not modelled; on all
strings used below `pyFloat` agrees with Python).  Machine floats are
modelled as rationals.
-/

/-- a JSON value as it occurs in a decoded invoice record. -/
inductive JVal where
  | null : JVal
  | str : String → JVal
  | num : ℚ → JVal
deriving DecidableEq

/-- a decoded JSON object: association list of field name to value. -/
abbrev RecordDict := List (String × JVal)

/-- first value stored under key `k` (Python `d.get(k)`). -/
def dget : RecordDict → String → Option JVal
  | [], _ => none
  | (k', v') :: t, k => if k' = k then some v' else dget t k

/-- store `v` under key `k`, replacing the first binding of `k` in place or
appending a new binding at the end (Python `d[k] = v`). -/
def dset : RecordDict → String → JVal → RecordDict
  | [], k, v => [(k, v)]
  | (k', v') :: t, k, v => if k' = k then (k, v) :: t else (k', v') :: dset t k v

/-- Python truthiness of the modelled values: `None`, `0` and `""` are
falsy, everything else truthy. -/
def truthy : JVal → Bool
  | .null => false
  | .str s => s != ""
  | .num q => q != 0

/-- decimal digit test. -/
def isDigit (c : Char) : Bool := '0' ≤ c && c ≤ '9'

/-- numeric value of a digit string. -/
def digitsVal (l : List Char) : ℕ := l.foldl (fun a c => 10 * a + (c.toNat - 48)) 0

/-- unsigned decimal literal: digits, optionally followed by a point and
more digits, with at least one digit in total. -/
def pyFloatCore (cs : List Char) : Option ℚ :=
  let intPart := cs.takeWhile isDigit
  let rest := cs.dropWhile isDigit
  match rest with
  | [] => if intPart.isEmpty then none else some (digitsVal intPart : ℚ)
  | '.' :: fr =>
    let fracPart := fr.takeWhile isDigit
    let rest2 := fr.dropWhile isDigit
    if rest2.isEmpty then
      if intPart.isEmpty && fracPart.isEmpty then none
      else some ((digitsVal intPart : ℚ) + (digitsVal fracPart : ℚ) / (10 : ℚ) ^ fracPart.length)
    else none
  | _ => none

/-- Python `float(s)` on plain (optionally signed) decimal literals;
`none` models the `ValueError` raised on anything else. -/
def pyFloat (s : String) : Option ℚ :=
  match s.data with
  | '-' :: rest => (pyFloatCore rest).map (fun q => -q)
  | '+' :: rest => pyFloatCore rest
  | cs => pyFloatCore cs

/-- Python `float(v)` on a stored JSON value; `none` models the exception
on non-numeric input (only ever applied to truthy values, so the `null`
branch is dead in the embedded code paths). -/
def pyCoerce : JVal → Option ℚ
  | .num q => some q
  | .str s => pyFloat s
  | .null => none

/-- the five numeric fields, in the order the source iterates them
(src/app.py line 186). -/
def amounts : List String :=
  ["subtotal_amount", "tax_amount", "discount_amount", "total_amount", "amount_due"]

/-- the coercion loop of `validate_invoice_data` (src/app.py lines 187-189):
for each key in order, if its value is truthy, replace it by `float` of it;
a coercion failure raises, which aborts the loop — modelled by returning the
partially updated record together with the key that failed. -/
def coerceLoop : List String → RecordDict → RecordDict × Option String
  | [], d => (d, none)
  | k :: ks, d =>
    let v := (dget d k).getD .null
    if truthy v then
      match pyCoerce v with
      | some q => coerceLoop ks (dset d k (.num q))
      | none => (d, some k)
    else coerceLoop ks d

/-- Python `x or dflt` on an optional stored value, as used after a
successful coercion pass (src/app.py lines 191-195): a falsy or absent value
yields the default; a truthy value there is always a number (the non-numeric
truthy branch is unreachable after the loop succeeds). -/
def orQ (v : Option JVal) (dflt : ℚ) : ℚ :=
  match v with
  | some w => if truthy w then (match w with | .num q => q | _ => dflt) else dflt
  | none => dflt

/-- the payment-status rule of src/app.py lines 198-203 (the spec's
Payment Status Resolver). -/
def resolve_status (total due : ℚ) : String :=
  if due = 0 then "paid" else if due < total then "partial" else "unpaid"

/-- the status-setting tail of `validate_invoice_data` (src/app.py lines
191-203): read `total_amount` (or 0) and `amount_due` (or the total), store
the resolved status under `payment_status`. -/
def setStatus (d : RecordDict) : RecordDict :=
  let total := orQ (dget d "total_amount") 0
  let due := orQ (dget d "amount_due") total
  dset d "payment_status" (.str (resolve_status total due))

/-- `validate_invoice_data` (src/app.py lines 182-208): run the coercion
loop; if it completes, derive `payment_status`; if a coercion raised, the
surrounding `except` logs a warning and the partially updated record is
returned as-is (the status block never runs). -/
def validate_invoice_data (d : RecordDict) : RecordDict :=
  match coerceLoop amounts d with
  | (d', none) => setStatus d'
  | (d', some _) => d'

theorem dget_dset (d : RecordDict) (k j : String) (v : JVal) :
    dget (dset d k v) j = if k = j then some v else dget d j := by
  induction d with
  | nil =>
    by_cases h : k = j <;> simp [dset, dget, h]
  | cons p t ih =>
    obtain ⟨k', v'⟩ := p
    by_cases h1 : k' = k
    · subst h1
      by_cases h2 : k' = j <;> simp [dset, dget, h2]
    · by_cases h2 : k' = j
      · subst h2
        have h3 : ¬(k = k') := fun h => h1 h.symm
        simp [dset, dget, h1, h3]
      · simp [dset, dget, h1, h2, ih]

theorem dset_self (d : RecordDict) (k : String) (v : JVal) (h : dget d k = some v) :
    dset d k v = d := by
  induction d with
  | nil => simp [dget] at h
  | cons p t ih =>
    obtain ⟨k', v'⟩ := p
    by_cases h1 : k' = k
    · subst h1
      simp [dget] at h
      simp [dset, h]
    · simp [dget, h1] at h
      simp [dset, h1, ih h]

theorem dset_dset_same (d : RecordDict) (k : String) (v w : JVal) :
    dset (dset d k v) k w = dset d k w := by
  induction d with
  | nil => simp [dset]
  | cons p t ih =>
    obtain ⟨k', v'⟩ := p
    by_cases h1 : k' = k <;> simp [dset, h1, ih]

/-- what one pass of the loop does to a single field: absent stays absent,
falsy values are untouched, truthy values are replaced by their coercion. -/
def coerceField : Option JVal → Option JVal
  | none => none
  | some v => if truthy v then (pyCoerce v).map .num else some v

theorem coerceLoop_dget_not_mem (ks : List String) (d : RecordDict) (k : String)
    (h : k ∉ ks) : dget (coerceLoop ks d).1 k = dget d k := by
  induction ks generalizing d with
  | nil => rfl
  | cons k' ks ih =>
    simp only [List.mem_cons, not_or] at h
    obtain ⟨hk, hks⟩ := h
    simp only [coerceLoop]
    by_cases ht : truthy ((dget d k').getD .null) = true
    · simp only [ht, if_true]
      cases hc : pyCoerce ((dget d k').getD .null) with
      | some q =>
        simp only [hc]
        rw [ih _ hks, dget_dset]
        have hkk : ¬(k' = k) := fun h => hk h.symm
        simp [hkk]
      | none => simp [hc]
    · rw [Bool.not_eq_true] at ht
      simp only [ht, Bool.false_eq_true, if_false]
      exact ih _ hks

theorem coerceLoop_isSome (ks : List String) (d : RecordDict) (k : String) :
    (dget (coerceLoop ks d).1 k).isSome = (dget d k).isSome := by
  induction ks generalizing d with
  | nil => rfl
  | cons k' ks ih =>
    simp only [coerceLoop]
    by_cases ht : truthy ((dget d k').getD .null) = true
    · simp only [ht, if_true]
      cases hc : pyCoerce ((dget d k').getD .null) with
      | some q =>
        simp only [hc]
        rw [ih]
        rw [dget_dset]
        by_cases hk : k' = k
        · subst hk
          cases hd : dget d k' with
          | none => rw [hd] at ht; simp [truthy] at ht
          | some w => simp
        · simp [hk]
      | none => simp [hc]
    · rw [Bool.not_eq_true] at ht
      simp only [ht, Bool.false_eq_true, if_false]
      exact ih d

theorem truthy_getD (d : RecordDict) (k : String)
    (ht : truthy ((dget d k).getD .null) = true) :
    ∃ w, dget d k = some w ∧ truthy w = true ∧ (dget d k).getD .null = w := by
  cases h : dget d k with
  | none => rw [h] at ht; simp [truthy] at ht
  | some w => exact ⟨w, rfl, by rw [h] at ht; exact ht, rfl⟩

theorem coerceLoop_success_dget (ks : List String) (d : RecordDict) (k : String)
    (hnd : ks.Nodup) (hmem : k ∈ ks) (hok : (coerceLoop ks d).2 = none) :
    dget (coerceLoop ks d).1 k = coerceField (dget d k) := by
  induction ks generalizing d with
  | nil => cases hmem
  | cons k' ks ih =>
    rw [List.nodup_cons] at hnd
    obtain ⟨hk', hnd⟩ := hnd
    simp only [coerceLoop] at hok ⊢
    by_cases ht : truthy ((dget d k').getD .null) = true
    · simp only [ht, if_true] at hok ⊢
      obtain ⟨w, hw, htw, hgd⟩ := truthy_getD d k' ht
      cases hc : pyCoerce ((dget d k').getD .null) with
      | some q =>
        simp only [hc] at hok ⊢
        rcases List.mem_cons.mp hmem with hkk | hkm
        · subst hkk
          rw [coerceLoop_dget_not_mem _ _ _ hk', dget_dset, if_pos rfl]
          rw [hgd] at hc
          rw [hw]
          simp [coerceField, htw, hc]
        · have hne : ¬(k' = k) := fun h => hk' (h ▸ hkm)
          rw [ih _ hnd hkm hok, dget_dset, if_neg hne]
      | none => simp [hc] at hok
    · rw [Bool.not_eq_true] at ht
      simp only [ht, Bool.false_eq_true, if_false] at hok ⊢
      rcases List.mem_cons.mp hmem with hkk | hkm
      · subst hkk
        rw [coerceLoop_dget_not_mem _ _ _ hk']
        cases h : dget d k with
        | none => rfl
        | some w =>
          rw [h] at ht
          simp only [Option.getD_some] at ht
          simp [coerceField, ht]
      · exact ih _ hnd hkm hok

theorem coerceLoop_abort (ks : List String) (d d' : RecordDict) (k : String)
    (hnd : ks.Nodup) (h : coerceLoop ks d = (d', some k)) :
    k ∈ ks ∧ dget d' k = dget d k ∧
      ∃ v, dget d k = some v ∧ truthy v = true ∧ pyCoerce v = none := by
  induction ks generalizing d with
  | nil => simp [coerceLoop] at h
  | cons k' ks ih =>
    rw [List.nodup_cons] at hnd
    obtain ⟨hk', hnd2⟩ := hnd
    simp only [coerceLoop] at h
    by_cases ht : truthy ((dget d k').getD .null) = true
    · simp only [ht, if_true] at h
      obtain ⟨w, hw, htw, hgd⟩ := truthy_getD d k' ht
      cases hc : pyCoerce ((dget d k').getD .null) with
      | some q =>
        simp only [hc] at h
        obtain ⟨hm, he, v, hv, htv, hcv⟩ := ih _ hnd2 h
        have hne : ¬(k' = k) := fun hh => hk' (hh ▸ hm)
        rw [dget_dset, if_neg hne] at he hv
        exact ⟨List.mem_cons_of_mem _ hm, he, v, hv, htv, hcv⟩
      | none =>
        simp only [hc, Prod.mk.injEq, Option.some.injEq] at h
        obtain ⟨hd, hk⟩ := h
        subst hd; subst hk
        exact ⟨List.mem_cons_self _ _, rfl, w, hw, htw, by rw [hgd] at hc; exact hc⟩
    · rw [Bool.not_eq_true] at ht
      simp only [ht, Bool.false_eq_true, if_false] at h
      obtain ⟨hm, he, hv⟩ := ih _ hnd2 h
      exact ⟨List.mem_cons_of_mem _ hm, he, hv⟩

/-- a field on which the coercion loop is a no-op: absent, falsy, or
already numeric. -/
def FixedAt (d : RecordDict) (k : String) : Prop :=
  ∀ v, dget d k = some v → truthy v = true → ∃ q, v = JVal.num q

theorem coerceLoop_fixed (ks : List String) (d : RecordDict)
    (h : ∀ k ∈ ks, FixedAt d k) : coerceLoop ks d = (d, none) := by
  induction ks with
  | nil => rfl
  | cons k' ks ih =>
    simp only [coerceLoop]
    by_cases ht : truthy ((dget d k').getD .null) = true
    · obtain ⟨w, hw, htw, hgd⟩ := truthy_getD d k' ht
      obtain ⟨q, hq⟩ := h k' (List.mem_cons_self _ _) w hw htw
      subst hq
      rw [hgd]
      simp only [htw, if_true, pyCoerce]
      rw [dset_self _ _ _ hw]
      exact ih (fun k hk => h k (List.mem_cons_of_mem _ hk))
    · rw [Bool.not_eq_true] at ht
      simp only [ht, Bool.false_eq_true, if_false]
      exact ih (fun k hk => h k (List.mem_cons_of_mem _ hk))

theorem coerceLoop_success_fixedAt (ks : List String) (d : RecordDict)
    (hnd : ks.Nodup) (hok : (coerceLoop ks d).2 = none) :
    ∀ k ∈ ks, FixedAt (coerceLoop ks d).1 k := by
  intro k hk v hv htv
  rw [coerceLoop_success_dget ks d k hnd hk hok] at hv
  cases h : dget d k with
  | none => rw [h] at hv; cases hv
  | some w =>
    rw [h, coerceField] at hv
    by_cases htw : truthy w = true
    · rw [if_pos htw] at hv
      cases hc : pyCoerce w with
      | none => rw [hc] at hv; cases hv
      | some q =>
        rw [hc] at hv
        exact ⟨q, (Option.some.injEq _ _ ▸ hv).symm⟩
    · rw [Bool.not_eq_true] at htw
      rw [if_neg (by rw [htw]; simp)] at hv
      cases hv
      rw [htv] at htw
      cases htw

theorem coerceLoop_rerun (ks : List String) (d : RecordDict) (hnd : ks.Nodup) :
    coerceLoop ks (coerceLoop ks d).1 = coerceLoop ks d := by
  induction ks generalizing d with
  | nil => rfl
  | cons k' ks ih =>
    rw [List.nodup_cons] at hnd
    obtain ⟨hk', hnd2⟩ := hnd
    by_cases ht : truthy ((dget d k').getD .null) = true
    · cases hc : pyCoerce ((dget d k').getD .null) with
      | some q =>
        have hstep : coerceLoop (k' :: ks) d = coerceLoop ks (dset d k' (JVal.num q)) := by
          simp only [coerceLoop, ht, if_true, hc]
        rw [hstep]
        have hget : dget (coerceLoop ks (dset d k' (JVal.num q))).1 k' = some (JVal.num q) := by
          rw [coerceLoop_dget_not_mem _ _ _ hk', dget_dset, if_pos rfl]
        simp only [coerceLoop]
        rw [hget]
        simp only [Option.getD_some]
        by_cases hq : q = 0
        · subst hq
          have h0 : truthy (JVal.num 0) = false := by decide
          rw [h0]
          simp only [Bool.false_eq_true, if_false]
          exact ih _ hnd2
        · have h1 : truthy (JVal.num q) = true := by simp [truthy, hq]
          rw [h1]
          simp only [if_true, pyCoerce]
          rw [dset_self _ _ _ hget]
          exact ih _ hnd2
      | none =>
        have hstep : coerceLoop (k' :: ks) d = (d, some k') := by
          simp only [coerceLoop, ht, if_true, hc]
        rw [hstep]
        exact hstep
    · rw [Bool.not_eq_true] at ht
      have hstep : coerceLoop (k' :: ks) d = coerceLoop ks d := by
        simp only [coerceLoop, ht, Bool.false_eq_true, if_false]
      rw [hstep]
      have hget : dget (coerceLoop ks d).1 k' = dget d k' := coerceLoop_dget_not_mem _ _ _ hk'
      simp only [coerceLoop]
      rw [hget, ht]
      simp only [Bool.false_eq_true, if_false]
      exact ih _ hnd2

theorem amounts_nodup : amounts.Nodup := by decide

theorem ps_not_mem_amounts : "payment_status" ∉ amounts := by decide

theorem dget_setStatus_ne (d : RecordDict) (k : String) (h : ¬(k = "payment_status")) :
    dget (setStatus d) k = dget d k := by
  have h2 : ¬("payment_status" = k) := fun hh => h hh.symm
  simp only [setStatus]
  rw [dget_dset, if_neg h2]

theorem dget_setStatus_ps (d : RecordDict) :
    dget (setStatus d) "payment_status" =
      some (.str (resolve_status (orQ (dget d "total_amount") 0)
        (orQ (dget d "amount_due") (orQ (dget d "total_amount") 0)))) := by
  simp only [setStatus]
  rw [dget_dset, if_pos rfl]

theorem setStatus_setStatus (d : RecordDict) : setStatus (setStatus d) = setStatus d := by
  conv_lhs => rw [setStatus, setStatus]
  rw [dget_dset, dget_dset,
    if_neg (by decide : ¬("payment_status" = "total_amount")),
    if_neg (by decide : ¬("payment_status" = "amount_due")), dset_dset_same]
  rw [setStatus]

theorem validate_of_success (d d' : RecordDict) (h : coerceLoop amounts d = (d', none)) :
    validate_invoice_data d = setStatus d' := by
  rw [validate_invoice_data, h]

theorem validate_of_abort (d d' : RecordDict) (k : String)
    (h : coerceLoop amounts d = (d', some k)) : validate_invoice_data d = d' := by
  rw [validate_invoice_data, h]

theorem orQ_num_zero_dflt (q : ℚ) : orQ (some (JVal.num q)) 0 = q := by
  by_cases hq : q = 0
  · subst hq; simp [orQ, truthy]
  · simp [orQ, truthy, hq]

/-- C1: the Payment Status Resolver maps `amount_due = 0` to `paid`,
`0 < amount_due < total_amount` to `partial`, and `amount_due ≥ total_amount`
(when nonzero) to `unpaid`, with the `paid` rule taking precedence at
`total = due = 0`; in particular the four example evaluations of the spec. -/
theorem c1_payment_status_resolver (total due : ℚ) :
    (due = 0 → resolve_status total due = "paid")
    ∧ (0 < due → due < total → resolve_status total due = "partial")
    ∧ (due ≥ total → due ≠ 0 → resolve_status total due = "unpaid")
    ∧ resolve_status 100 0 = "paid"
    ∧ resolve_status 100 40 = "partial"
    ∧ resolve_status 100 100 = "unpaid"
    ∧ resolve_status 0 0 = "paid" := by
  refine ⟨?_, ?_, ?_, by norm_num [resolve_status], by norm_num [resolve_status],
    by norm_num [resolve_status], by norm_num [resolve_status]⟩
  · intro h; simp [resolve_status, h]
  · intro h1 h2
    rw [resolve_status, if_neg (by linarith), if_pos h2]
  · intro h1 h2
    rw [resolve_status, if_neg h2, if_neg (by linarith)]

/-- witness for C1 at the spec's four concrete inputs. -/
theorem c1_payment_status_resolver_witness :
    resolve_status 100 0 = "paid" ∧ resolve_status 100 40 = "partial"
    ∧ resolve_status 100 100 = "unpaid" ∧ resolve_status 0 0 = "paid" :=
  ⟨(c1_payment_status_resolver 100 0).1 rfl,
   (c1_payment_status_resolver 100 40).2.1 (by norm_num) (by norm_num),
   (c1_payment_status_resolver 100 100).2.2.1 (by norm_num) (by norm_num),
   (c1_payment_status_resolver 0 0).1 rfl⟩

/-- C2 counterexample: with raw `subtotal_amount = "abc"` (coercion fails)
and `total_amount = "100"`, validation returns the record unchanged — the
failing field does not become null, the remaining numeric field is not
coerced, and `payment_status` is not derived, contradicting the claim. -/
theorem c2_counterexample :
    validate_invoice_data [("subtotal_amount", JVal.str "abc"), ("total_amount", JVal.str "100")]
      = [("subtotal_amount", JVal.str "abc"), ("total_amount", JVal.str "100")]
    ∧ dget (validate_invoice_data
        [("subtotal_amount", JVal.str "abc"), ("total_amount", JVal.str "100")])
        "subtotal_amount" = some (JVal.str "abc")
    ∧ dget (validate_invoice_data
        [("subtotal_amount", JVal.str "abc"), ("total_amount", JVal.str "100")])
        "total_amount" = some (JVal.str "100")
    ∧ dget (validate_invoice_data
        [("subtotal_amount", JVal.str "abc"), ("total_amount", JVal.str "100")])
        "payment_status" = none :=
  ⟨by decide, by decide, by decide, by decide⟩

/-- C2 (amended): when a numeric field is present, truthy and fails
coercion, normalization still does not raise — the record is returned — but
the loop aborts: the failing field keeps its raw value instead of becoming
null, and `payment_status` is left exactly as in the input (not derived). -/
theorem c2_coercion_failure_aborts (d d' : RecordDict) (k : String)
    (h : coerceLoop amounts d = (d', some k)) :
    validate_invoice_data d = d'
    ∧ k ∈ amounts
    ∧ dget d' k = dget d k
    ∧ (∃ v, dget d k = some v ∧ truthy v = true ∧ pyCoerce v = none)
    ∧ dget (validate_invoice_data d) "payment_status" = dget d "payment_status" := by
  obtain ⟨hm, he, hv⟩ := coerceLoop_abort amounts d d' k amounts_nodup h
  refine ⟨validate_of_abort d d' k h, hm, he, hv, ?_⟩
  rw [validate_of_abort d d' k h]
  have hps := coerceLoop_dget_not_mem amounts d "payment_status" ps_not_mem_amounts
  rw [h] at hps
  exact hps

/-- witness for C2 (amended) at the concrete record of the counterexample. -/
theorem c2_coercion_failure_aborts_witness :
    validate_invoice_data [("subtotal_amount", JVal.str "abc"), ("total_amount", JVal.str "100")]
      = [("subtotal_amount", JVal.str "abc"), ("total_amount", JVal.str "100")]
    ∧ "subtotal_amount" ∈ amounts
    ∧ dget [("subtotal_amount", JVal.str "abc"), ("total_amount", JVal.str "100")] "subtotal_amount"
        = dget [("subtotal_amount", JVal.str "abc"), ("total_amount", JVal.str "100")] "subtotal_amount"
    ∧ (∃ v, dget [("subtotal_amount", JVal.str "abc"), ("total_amount", JVal.str "100")] "subtotal_amount"
          = some v ∧ truthy v = true ∧ pyCoerce v = none)
    ∧ dget (validate_invoice_data
        [("subtotal_amount", JVal.str "abc"), ("total_amount", JVal.str "100")]) "payment_status"
        = dget [("subtotal_amount", JVal.str "abc"), ("total_amount", JVal.str "100")] "payment_status" :=
  c2_coercion_failure_aborts _ _ "subtotal_amount" (by decide)

/-- C3 counterexample: an upstream-supplied `payment_status` of `"bogus"`
survives into the output when a numeric coercion fails (`total_amount = "x"`),
contradicting "any supplied value is discarded and never appears". -/
theorem c3_counterexample :
    dget (validate_invoice_data
        [("payment_status", JVal.str "bogus"), ("total_amount", JVal.str "x")])
      "payment_status" = some (JVal.str "bogus") := by decide

/-- C3 (amended): whenever every numeric coercion succeeds, the output's
`payment_status` is exactly the value the Resolver derives from the coerced
`amount_due` and `total_amount` (overwriting any supplied value); when a
coercion fails the status block is skipped and a supplied value survives. -/
theorem c3_status_recomputed_on_success (d d' : RecordDict)
    (h : coerceLoop amounts d = (d', none)) :
    dget (validate_invoice_data d) "payment_status"
      = some (JVal.str (resolve_status (orQ (dget d' "total_amount") 0)
          (orQ (dget d' "amount_due") (orQ (dget d' "total_amount") 0)))) := by
  rw [validate_of_success d d' h, dget_setStatus_ps]

/-- witness for C3 (amended) at a concrete record. -/
theorem c3_status_recomputed_on_success_witness :
    dget (validate_invoice_data [("total_amount", JVal.num 50)]) "payment_status"
      = some (JVal.str (resolve_status
          (orQ (dget [("total_amount", JVal.num 50)] "total_amount") 0)
          (orQ (dget [("total_amount", JVal.num 50)] "amount_due")
            (orQ (dget [("total_amount", JVal.num 50)] "total_amount") 0)))) :=
  c3_status_recomputed_on_success _ _ (by decide)

/-- C4 counterexample: raw `{"total_amount": 50}` normalizes to a record
whose `amount_due` field is still absent (not 50); only `payment_status`
reflects the defaulting, becoming `unpaid`. -/
theorem c4_counterexample :
    dget (validate_invoice_data [("total_amount", JVal.num 50)]) "amount_due" = none
    ∧ dget (validate_invoice_data [("total_amount", JVal.num 50)]) "payment_status"
        = some (JVal.str "unpaid") :=
  ⟨by decide, by decide⟩

/-- C4 (amended): when `amount_due` is absent and coercion succeeds with
`total_amount = q`, the defaulting of `amount_due` to `total_amount` happens
only inside status resolution: the output's `amount_due` stays absent and
`payment_status = resolve_status q q`, which is `unpaid` for `q ≠ 0`. -/
theorem c4_amount_due_default_internal_only (d d' : RecordDict) (q : ℚ)
    (hok : coerceLoop amounts d = (d', none))
    (habs : dget d "amount_due" = none)
    (htot : dget d' "total_amount" = some (JVal.num q)) :
    dget (validate_invoice_data d) "amount_due" = none
    ∧ dget (validate_invoice_data d) "payment_status" = some (JVal.str (resolve_status q q))
    ∧ (q ≠ 0 → resolve_status q q = "unpaid") := by
  have hs := coerceLoop_isSome amounts d "amount_due"
  rw [hok, habs] at hs
  have habs' : dget d' "amount_due" = none := by
    cases hd : dget d' "amount_due" with
    | none => rfl
    | some w => rw [hd] at hs; simp at hs
  refine ⟨?_, ?_, ?_⟩
  · rw [validate_of_success d d' hok,
      dget_setStatus_ne d' "amount_due" (by decide), habs']
  · rw [validate_of_success d d' hok, dget_setStatus_ps, habs', htot, orQ_num_zero_dflt]
    rfl
  · intro hq
    rw [resolve_status, if_neg hq, if_neg (lt_irrefl q)]

/-- witness for C4 (amended) at the spec's example `{"total_amount": 50}`. -/
theorem c4_amount_due_default_internal_only_witness :
    dget (validate_invoice_data [("total_amount", JVal.num 50)]) "amount_due" = none
    ∧ dget (validate_invoice_data [("total_amount", JVal.num 50)]) "payment_status"
        = some (JVal.str (resolve_status 50 50))
    ∧ ((50 : ℚ) ≠ 0 → resolve_status 50 50 = "unpaid") :=
  c4_amount_due_default_internal_only [("total_amount", JVal.num 50)]
    [("total_amount", JVal.num 50)] 50 (by decide) (by decide) (by decide)

/-- C6 counterexample: the raw numeric string `"-5"` coerces successfully,
so the normalized `total_amount` is the negative value `-5` — normalization
performs no non-negativity check. -/
theorem c6_counterexample :
    dget (validate_invoice_data [("total_amount", JVal.str "-5")]) "total_amount"
      = some (JVal.num (-5))
    ∧ (-5 : ℚ) < 0 :=
  ⟨by decide, by norm_num⟩

/-- C6 (amended): after a successful coercion pass each numeric field is
absent, its original falsy value, or exactly the numeric coercion of its raw
value — with no sign (or finiteness) restriction, so negative raw values
pass through. -/
theorem c6_numeric_fields_coerced_unchecked (d : RecordDict) (k : String)
    (hk : k ∈ amounts) (hok : (coerceLoop amounts d).2 = none) :
    dget (validate_invoice_data d) k = coerceField (dget d k) := by
  have hne : ¬(k = "payment_status") := fun h => ps_not_mem_amounts (h ▸ hk)
  have hp : coerceLoop amounts d = ((coerceLoop amounts d).1, none) := by
    rw [← hok]
  rw [validate_of_success d _ hp, dget_setStatus_ne _ _ hne,
    coerceLoop_success_dget amounts d k amounts_nodup hk hok]

/-- witness for C6 (amended) at the negative-input record. -/
theorem c6_numeric_fields_coerced_unchecked_witness :
    dget (validate_invoice_data [("total_amount", JVal.str "-5")]) "total_amount"
      = coerceField (dget [("total_amount", JVal.str "-5")] "total_amount") :=
  c6_numeric_fields_coerced_unchecked [("total_amount", JVal.str "-5")]
    "total_amount" (by decide) (by decide)

/-- C7: the normalization-and-status step is idempotent — applying
`validate_invoice_data` twice equals applying it once, on every record
(including records on which a coercion fails) — and it is a function, so
equal inputs give equal outputs. -/
theorem c7_idempotent (d e : RecordDict) :
    validate_invoice_data (validate_invoice_data d) = validate_invoice_data d
    ∧ (d = e → validate_invoice_data d = validate_invoice_data e) := by
  constructor
  · cases hcl : coerceLoop amounts d with
    | mk d' r =>
      cases r with
      | some k =>
        rw [validate_of_abort d d' k hcl]
        have h2 : coerceLoop amounts d' = (d', some k) := by
          have hr := coerceLoop_rerun amounts d amounts_nodup
          rw [hcl] at hr
          exact hr
        exact validate_of_abort d' d' k h2
      | none =>
        rw [validate_of_success d d' hcl]
        have hfix : ∀ k ∈ amounts, FixedAt d' k := by
          have hf := coerceLoop_success_fixedAt amounts d amounts_nodup (by rw [hcl])
          rw [hcl] at hf
          exact hf
        have hfix2 : ∀ k ∈ amounts, FixedAt (setStatus d') k := by
          intro k hk v hv htv
          rw [dget_setStatus_ne d' k (fun h => ps_not_mem_amounts (h ▸ hk))] at hv
          exact hfix k hk v hv htv
        have h2 : coerceLoop amounts (setStatus d') = (setStatus d', none) :=
          coerceLoop_fixed amounts (setStatus d') hfix2
        rw [validate_of_success _ _ h2, setStatus_setStatus]
  · intro h; rw [h]

/-- witness for C7 at a concrete record. -/
theorem c7_idempotent_witness :
    validate_invoice_data (validate_invoice_data [("total_amount", JVal.num 100)])
      = validate_invoice_data [("total_amount", JVal.num 100)]
    ∧ validate_invoice_data [("total_amount", JVal.num 100)]
      = validate_invoice_data [("total_amount", JVal.num 100)] :=
  ⟨(c7_idempotent [("total_amount", JVal.num 100)] [("total_amount", JVal.num 100)]).1,
   (c7_idempotent [("total_amount", JVal.num 100)] [("total_amount", JVal.num 100)]).2 rfl⟩

/-- C10: validation touches at most the five numeric fields and
`payment_status`: every other key keeps its exact value, and no key other
than `payment_status` is added or removed. -/
theorem c10_frame (d : RecordDict) (k : String) :
    (k ∉ amounts → ¬(k = "payment_status") → dget (validate_invoice_data d) k = dget d k)
    ∧ (¬(k = "payment_status") →
        (dget (validate_invoice_data d) k).isSome = (dget d k).isSome) := by
  cases hcl : coerceLoop amounts d with
  | mk d' r =>
    cases r with
    | some k' =>
      rw [validate_of_abort d d' k' hcl]
      constructor
      · intro hk _
        have hh := coerceLoop_dget_not_mem amounts d k hk
        rw [hcl] at hh
        exact hh
      · intro _
        have hh := coerceLoop_isSome amounts d k
        rw [hcl] at hh
        exact hh
    | none =>
      rw [validate_of_success d d' hcl]
      constructor
      · intro hk hps
        rw [dget_setStatus_ne d' k hps]
        have hh := coerceLoop_dget_not_mem amounts d k hk
        rw [hcl] at hh
        exact hh
      · intro hps
        rw [dget_setStatus_ne d' k hps]
        have hh := coerceLoop_isSome amounts d k
        rw [hcl] at hh
        exact hh

/-- witness for C10 at a record with a pass-through field. -/
theorem c10_frame_witness :
    dget (validate_invoice_data
        [("vendor_name", JVal.str "Acme"), ("total_amount", JVal.num 3)]) "vendor_name"
      = dget [("vendor_name", JVal.str "Acme"), ("total_amount", JVal.num 3)] "vendor_name"
    ∧ (dget (validate_invoice_data
        [("vendor_name", JVal.str "Acme"), ("total_amount", JVal.num 3)]) "total_amount").isSome
      = (dget [("vendor_name", JVal.str "Acme"), ("total_amount", JVal.num 3)] "total_amount").isSome :=
  ⟨(c10_frame [("vendor_name", JVal.str "Acme"), ("total_amount", JVal.num 3)] "vendor_name").1
      (by decide) (by decide),
   (c10_frame [("vendor_name", JVal.str "Acme"), ("total_amount", JVal.num 3)] "total_amount").2
      (by decide)⟩

/-- outcome of one file's pipeline before validation (src/app.py lines
219-223): `fail` models an exception anywhere in `read_pdf` /
`extract_invoice_data` / `json.loads` (caught by the per-file `except`);
`payload` models a successfully decoded JSON object. -/
inductive Attempt where
  | fail : Attempt
  | payload : RecordDict → Attempt

/-- Python `"error" in data_dict` (src/app.py line 226). -/
def hasError (d : RecordDict) : Bool := (dget d "error").isSome

/-- `process_invoices` (src/app.py lines 210-243): iterate the files in
order; a failed attempt is skipped (logged, loop continues); a payload with
an `error` key is skipped; otherwise the record is validated, tagged with
`source_file`, and appended. -/
def process_invoices : List (String × Attempt) → List RecordDict
  | [] => []
  | (_, .fail) :: rest => process_invoices rest
  | (n, .payload d) :: rest =>
    if hasError d then process_invoices rest
    else dset (validate_invoice_data d) "source_file" (.str n) :: process_invoices rest

/-- a file attempt that contributes a record: decoded payload with no
`error` marker. -/
def attemptOk : String × Attempt → Bool
  | (_, .fail) => false
  | (_, .payload d) => !hasError d

theorem process_invoices_nil : process_invoices [] = [] := rfl

theorem process_invoices_fail (n : String) (rest : List (String × Attempt)) :
    process_invoices ((n, .fail) :: rest) = process_invoices rest := rfl

theorem process_invoices_payload (n : String) (d : RecordDict)
    (rest : List (String × Attempt)) :
    process_invoices ((n, .payload d) :: rest) =
      if hasError d then process_invoices rest
      else dset (validate_invoice_data d) "source_file" (.str n) :: process_invoices rest := rfl

theorem process_invoices_append (fs₁ fs₂ : List (String × Attempt)) :
    process_invoices (fs₁ ++ fs₂) = process_invoices fs₁ ++ process_invoices fs₂ := by
  induction fs₁ with
  | nil => rfl
  | cons f rest ih =>
    obtain ⟨n, a⟩ := f
    cases a with
    | fail => rw [List.cons_append, process_invoices_fail, process_invoices_fail, ih]
    | payload d =>
      rw [List.cons_append, process_invoices_payload, process_invoices_payload, ih]
      by_cases h : hasError d = true
      · simp [h]
      · simp [h]

theorem process_invoices_length (fs : List (String × Attempt)) :
    (process_invoices fs).length = fs.countP attemptOk := by
  induction fs with
  | nil => rfl
  | cons f rest ih =>
    obtain ⟨n, a⟩ := f
    cases a with
    | fail =>
      rw [process_invoices_fail, List.countP_cons]
      simp [attemptOk, ih]
    | payload d =>
      rw [process_invoices_payload, List.countP_cons]
      by_cases h : hasError d = true
      · simp [h, attemptOk, ih]
      · simp [h, attemptOk, ih]

/-- C5: the batch aggregator is an order-preserving fold: splitting the
file list splits the result, a failing file contributes nothing and blocks
nothing, the result has exactly one record per contributing file, and the
spec's three-file example (file 2 fails) yields exactly the records of
files 1 and 3 in that order. -/
theorem c5_batch_isolation (fs fs₁ fs₂ : List (String × Attempt)) (n n₁ n₃ : String)
    (d₁ d₃ : RecordDict) :
    process_invoices (fs₁ ++ fs₂) = process_invoices fs₁ ++ process_invoices fs₂
    ∧ process_invoices (fs₁ ++ (n, Attempt.fail) :: fs₂)
        = process_invoices fs₁ ++ process_invoices fs₂
    ∧ (process_invoices fs).length = fs.countP attemptOk
    ∧ (hasError d₁ = false → hasError d₃ = false →
        process_invoices [(n₁, Attempt.payload d₁), (n, Attempt.fail), (n₃, Attempt.payload d₃)]
          = [dset (validate_invoice_data d₁) "source_file" (JVal.str n₁),
             dset (validate_invoice_data d₃) "source_file" (JVal.str n₃)]) := by
  refine ⟨process_invoices_append fs₁ fs₂, ?_, process_invoices_length fs, ?_⟩
  · rw [process_invoices_append fs₁ ((n, Attempt.fail) :: fs₂), process_invoices_fail]
  · intro h1 h3
    rw [process_invoices_payload, if_neg (by simp [h1]), process_invoices_fail,
      process_invoices_payload, if_neg (by simp [h3]), process_invoices_nil]

/-- witness for C5: concrete three-file batch with file 2 failing. -/
theorem c5_batch_isolation_witness :
    process_invoices [("f1", Attempt.payload [("total_amount", JVal.num 100)]),
        ("f2", Attempt.fail), ("f3", Attempt.payload [])]
      = [dset (validate_invoice_data [("total_amount", JVal.num 100)]) "source_file" (JVal.str "f1"),
         dset (validate_invoice_data []) "source_file" (JVal.str "f3")] :=
  (c5_batch_isolation [] [] [] "f2" "f1" "f3" [("total_amount", JVal.num 100)] []).2.2.2
    (by decide) (by decide)

/-- the opening-brace character. -/
def lbrace : Char := Char.ofNat 123

/-- the closing-brace character. -/
def rbrace : Char := Char.ofNat 125

/-- Python `str.find` for a single character, scanning left to right with a
running index; `-1` when absent. -/
def pyFindAux : List Char → Char → ℤ → ℤ
  | [], _, _ => -1
  | x :: rest, c, i => if x = c then i else pyFindAux rest c (i + 1)

/-- Python `s.find(c)`. -/
def pyFind (s : List Char) (c : Char) : ℤ := pyFindAux s c 0

/-- Python `str.rfind` for a single character: scan left to right keeping
the index of the most recent match; `-1` when absent. -/
def pyRFindAux : List Char → Char → ℤ → ℤ → ℤ
  | [], _, _, acc => acc
  | x :: rest, c, i, acc => pyRFindAux rest c (i + 1) (if x = c then i else acc)

/-- Python `s.rfind(c)`. -/
def pyRFind (s : List Char) (c : Char) : ℤ := pyRFindAux s c 0 (-1)

/-- Python slice `s[a:b]` for non-negative bounds. -/
def pySlice (s : List Char) (a b : ℕ) : List Char := (s.drop a).take (b - a)

/-- the JSON boundary extraction of `extract_invoice_data` (src/app.py
lines 174-176): `full_response[start:end]` with `start = find of the first
opening brace` and `end = rfind of the last closing brace, plus one`, or
the whole response when no opening brace exists. -/
def sliceJson (s : List Char) : List Char :=
  if pyFind s lbrace = -1 then s
  else pySlice s (pyFind s lbrace).toNat ((pyRFind s rbrace) + 1).toNat

theorem pyFindAux_eq (cs : List Char) (c : Char) (n : ℤ) (i : ℕ)
    (h : cs[i]? = some c) (hmin : ∀ m, m < i → cs[m]? ≠ some c) :
    pyFindAux cs c n = n + i := by
  induction cs generalizing n i with
  | nil => simp at h
  | cons x rest ih =>
    cases i with
    | zero =>
      simp only [List.getElem?_cons_zero, Option.some.injEq] at h
      subst h
      simp [pyFindAux]
    | succ i =>
      have hx : ¬(x = c) := by
        have h0 := hmin 0 (Nat.succ_pos i)
        simpa using h0
      simp only [List.getElem?_cons_succ] at h
      rw [pyFindAux, if_neg hx, ih (n + 1) i h (fun m hm => by
        have hmm := hmin (m + 1) (Nat.succ_lt_succ hm)
        simpa using hmm)]
      push_cast
      ring

theorem pyFindAux_none (cs : List Char) (c : Char) (n : ℤ)
    (h : ∀ m : ℕ, cs[m]? ≠ some c) : pyFindAux cs c n = -1 := by
  induction cs generalizing n with
  | nil => rfl
  | cons x rest ih =>
    have hx : ¬(x = c) := by
      have h0 := h 0
      simpa using h0
    rw [pyFindAux, if_neg hx]
    exact ih (n + 1) (fun m => by have hm := h (m + 1); simpa using hm)

theorem pyRFindAux_no_match (cs : List Char) (c : Char) (n acc : ℤ)
    (h : ∀ m : ℕ, cs[m]? ≠ some c) : pyRFindAux cs c n acc = acc := by
  induction cs generalizing n acc with
  | nil => rfl
  | cons x rest ih =>
    have hx : ¬(x = c) := by
      have h0 := h 0
      simpa using h0
    rw [pyRFindAux, if_neg hx]
    exact ih (n + 1) acc (fun m => by have hm := h (m + 1); simpa using hm)

theorem pyRFindAux_eq (cs : List Char) (c : Char) (n acc : ℤ) (j : ℕ)
    (h : cs[j]? = some c) (hmax : ∀ m, j < m → cs[m]? ≠ some c) :
    pyRFindAux cs c n acc = n + j := by
  induction cs generalizing n acc j with
  | nil => simp at h
  | cons x rest ih =>
    cases j with
    | zero =>
      have hxc : x = c := by simpa using h
      rw [pyRFindAux, if_pos hxc]
      rw [pyRFindAux_no_match rest c (n + 1) n (fun m => by
        have hm := hmax (m + 1) (Nat.succ_pos m)
        simpa using hm)]
      simp
    | succ j =>
      simp only [List.getElem?_cons_succ] at h
      rw [pyRFindAux]
      rw [ih (n + 1) _ j h (fun m hm => by
        have hmm := hmax (m + 1) (Nat.succ_lt_succ hm)
        simpa using hmm)]
      push_cast
      ring

/-- C8: on any response that contains an opening and a closing brace
(characterized by a first opening-brace index `i` and a last closing-brace
index `j`), boundary extraction returns exactly the slice from `i` through
`j` inclusive; on any response with no opening brace it returns the
response unchanged. -/
theorem c8_boundary_extraction (s : List Char) :
    (∀ i j : ℕ, s[i]? = some lbrace → (∀ m, m < i → s[m]? ≠ some lbrace) →
      s[j]? = some rbrace → (∀ m, j < m → s[m]? ≠ some rbrace) →
      sliceJson s = (s.drop i).take (j + 1 - i))
    ∧ ((∀ m : ℕ, s[m]? ≠ some lbrace) → sliceJson s = s) := by
  constructor
  · intro i j hi hmini hj hmaxj
    have hfind : pyFind s lbrace = (i : ℤ) := by
      rw [pyFind, pyFindAux_eq s lbrace 0 i hi hmini]
      ring
    have hrfind : pyRFind s rbrace = (j : ℤ) := by
      rw [pyRFind, pyRFindAux_eq s rbrace 0 (-1) j hj hmaxj]
      ring
    rw [sliceJson, hfind, hrfind, if_neg (by omega)]
    have h1 : ((i : ℤ)).toNat = i := by omega
    have h2 : ((j : ℤ) + 1).toNat = j + 1 := by omega
    rw [h1, h2]
    rfl
  · intro h
    have hfind : pyFind s lbrace = -1 := pyFindAux_none s lbrace 0 h
    rw [sliceJson, hfind, if_pos rfl]

/-- witness for C8 on the concrete responses "a{b}c" and "ab". -/
theorem c8_boundary_extraction_witness :
    sliceJson ['a', lbrace, 'b', rbrace, 'c']
      = ((['a', lbrace, 'b', rbrace, 'c'].drop 1).take 3)
    ∧ sliceJson ['a', 'b'] = ['a', 'b'] := by
  constructor
  · refine (c8_boundary_extraction ['a', lbrace, 'b', rbrace, 'c']).1 1 3 (by decide)
      (fun m hm => by
        have hm0 : m = 0 := by omega
        subst hm0
        decide)
      (by decide)
      (fun m hm => ?_)
    rcases Nat.lt_or_ge m 5 with h5 | h5
    · have hm4 : m = 4 := by omega
      subst hm4
      decide
    · rw [List.getElem?_eq_none (by simpa using h5)]
      simp
  · refine (c8_boundary_extraction ['a', 'b']).2 (fun m => ?_)
    rcases Nat.lt_or_ge m 2 with h2 | h2
    · interval_cases m <;> decide
    · rw [List.getElem?_eq_none (by simpa using h2)]
      simp

/-- outcome of the remote chat-completion call in `extract_invoice_data`
(src/app.py lines 165-171): the response content, or an exception message. -/
inductive CallResult where
  | ok : List Char → CallResult
  | exc : String → CallResult

/-- the string returned by `extract_invoice_data`, abstracted to its
parse-relevant shape: `errorObj m` stands for `json.dumps` of a one-key
object `error ↦ m` (which `json.loads` decodes back to that object), and
`sliced t` for the boundary-extracted response text. -/
inductive ExtractOut where
  | errorObj : String → ExtractOut
  | sliced : List Char → ExtractOut

/-- the fixed message of src/app.py line 129. -/
def apiKeyMissingMsg : String := "API key not configured"

/-- `extract_invoice_data` (src/app.py lines 124-180): when the client is
unconfigured (`client is None`) it returns the configuration-error object
up front, without touching the remote call; otherwise it returns the
boundary-extracted response on success and an `API call failed` error
object when the call raises. -/
def extract_invoice_data (configured : Bool) (call : CallResult) : ExtractOut :=
  if configured then
    match call with
    | .ok content => .sliced (sliceJson content)
    | .exc e => .errorObj ("API call failed: " ++ e)
  else .errorObj apiKeyMissingMsg

/-- `json.loads` applied to the string `extract_invoice_data` returned
(src/app.py line 223): an error object decodes to the one-key record it was
dumped from; arbitrary sliced text is decoded by the abstract `parse`
(`none` models a `JSONDecodeError`, i.e. a failed attempt). -/
def loadOutcome (parse : List Char → Option RecordDict) : ExtractOut → Attempt
  | .errorObj m => .payload [("error", .str m)]
  | .sliced t =>
    match parse t with
    | some d => .payload d
    | none => .fail

/-- C9: with the credential absent, every extraction call returns the
configuration-error object up front — independently of what the remote
call would do — that object carries the `error` marker, and a batch run
over any files in this mode produces no records at all. -/
theorem c9_unconfigured_refuses (files : List (String × CallResult))
    (parse : List Char → Option RecordDict) (c : CallResult) :
    extract_invoice_data false c = ExtractOut.errorObj apiKeyMissingMsg
    ∧ hasError [("error", JVal.str apiKeyMissingMsg)] = true
    ∧ process_invoices
        (files.map fun p => (p.1, loadOutcome parse (extract_invoice_data false p.2))) = [] := by
  have hx : ∀ cr, extract_invoice_data false cr = ExtractOut.errorObj apiKeyMissingMsg :=
    fun _ => rfl
  refine ⟨hx c, by decide, ?_⟩
  induction files with
  | nil => rfl
  | cons f rest ih =>
    obtain ⟨n, cr⟩ := f
    simp only [List.map_cons, hx, loadOutcome]
    rw [process_invoices_payload, if_pos (by decide)]
    exact ih
